import Mathlib

/-!
Shallow embedding of the namespace-projection core of `mysqlfuse`
(src/mysqlfuse.go).

The process-wide `tableMap` (a `sync.Map` from table name to an inner
`sync.Map` from child path to `*FileIndex`) is modelled as an association
list with Go `sync.Map` semantics: `Store` replaces an existing key in
place, `Load` returns the first binding, the `Range`+`Delete` clearing
loop followed by stores is modelled by building the replacement list
from scratch.  The two backend queries (`getTables`, `getRecordIDs`) are
modelled as an oracle structure `DB` whose fields hold the results the
`database/sql` layer would deliver: `Except.error ()` for any connection
or query failure, `Except.ok xs` for a completed enumeration (rows that
fail to `Scan` are skipped by the source before the slice is returned,
so the oracle already holds the surviving rows).  Go `int64` record ids
are modelled as `Int`; `fmt.Sprintf "%d.sql" id` agrees with
`toString id ++ ".sql"` on the int64 range.
-/

namespace MysqlFuse

/-- Outcome of the `syscall.Errno` returned by `Opendir`: `fs.OK` is the
zero errno. -/
def fsOK : Nat := 0

/-- `syscall.ENOTDIR` on Linux, used only to state that `Opendir` never
returns it. -/
def ENOTDIR : Nat := 20

/-- `0644 | syscall.S_IFREG` from the `fileMode` constant of the source. -/
def fileMode : Nat := Nat.lor 420 32768

/-- `0755 | syscall.S_IFDIR` from the `dirMode` constant of the source. -/
def dirMode : Nat := Nat.lor 493 16384

/-- The `FileIndex` struct of the source: the joined child path and the
bare entry name. -/
structure FileIndex where
  path : String
  name : String
deriving DecidableEq, Repr

/-- Inner `sync.Map` of `tableMap`: child path to `FileIndex`. -/
abbrev EntryMap := List (String × FileIndex)

/-- The global `tableMap`: table name to its entry map. -/
abbrev TableMap := List (String × EntryMap)

/-- `sync.Map.Load`: first binding for the key, if any. -/
def alistLoad {β : Type} (m : List (String × β)) (k : String) : Option β :=
  match m with
  | [] => none
  | (k', v) :: rest => if k = k' then some v else alistLoad rest k

/-- `sync.Map.Store`: replace the binding for the key in place, or append
a fresh one. -/
def alistStore {β : Type} (m : List (String × β)) (k : String) (v : β) :
    List (String × β) :=
  match m with
  | [] => [(k, v)]
  | (k', v') :: rest =>
    if k = k' then (k, v) :: rest else (k', v') :: alistStore rest k v

/-- Backend oracle: the results the two query helpers of the source
(`getTables`, `getRecordIDs`) obtain from the database, with `.error ()`
standing for any connection or query failure. -/
structure DB where
  tables : Except Unit (List String)
  recordIDs : String → Except Unit (List Int)

/-- Go `filepath.Join` restricted to the inputs the filesystem layer can
produce: a directory that is empty (the root) or a clean slash-free
table name, and a clean child name (nonempty, not a dot component, no
slash), for which `Join` is plain concatenation with a separator. -/
def filepathJoin (dir name : String) : String :=
  if dir = "" then name else dir ++ "/" ++ name

/-- A name the kernel filesystem layer may hand to `Lookup` as a child
component: nonempty, not `.` or `..`, and slash-free.  On such names
(and such directory contexts) `filepathJoin` coincides with Go's
`filepath.Join`. -/
def validChildName (s : String) : Bool :=
  decide (s ≠ "") && decide (s ≠ ".") && decide (s ≠ "..") &&
    !(s.data.contains ('/'))

/-- One `fuse.DirEntry` as the source fills it: name and mode. -/
structure DirEntry where
  name : String
  mode : Nat
deriving DecidableEq, Repr

/-- Result of a `Readdir` call: a directory stream, the `ENOENT` errno,
or the runtime panic of the nil-interface type assertion at the
`tableMap.Load(path)` site. -/
inductive DirOutcome where
  | ok (entries : List DirEntry) : DirOutcome
  | enoent : DirOutcome
  | panicked : DirOutcome
deriving DecidableEq, Repr

/-- Result of a `Lookup` call: a child inode with the given stable-attr
mode, or `ENOENT`. -/
inductive LookupResult where
  | hit (mode : Nat) : LookupResult
  | miss : LookupResult
deriving DecidableEq, Repr

/-- The root branch of `Readdir` after a successful `getTables`: every
previous key of `tableMap` is deleted by the `Range` loop and each
fetched table is stored with a fresh empty entry map. -/
def rebuildTables (elements : List String) : TableMap :=
  elements.foldl (fun m ele => alistStore m ele ([] : EntryMap)) []

/-- The table branch of `Readdir` after a successful `getRecordIDs`: the
inner map is cleared by its `Range` loop and refilled with one
`FileIndex` per element, keyed by `filepath.Join(path, ele)`. -/
def mkEntryMap (path : String) (elements : List String) : EntryMap :=
  elements.foldl
    (fun m ele =>
      alistStore m (filepathJoin path ele)
        (FileIndex.mk (filepathJoin path ele) ele)) []

/-- `(*MySQLRoot).Readdir` of the source, as a function of the node's
path, the current `tableMap`, and the backend oracle.  At the root it
fetches tables (any error becomes `ENOENT` with the map untouched) and
wholesale rebuilds `tableMap`; inside a table it fetches record ids,
renders `"%d.sql"` names, and — after the unchecked
`tableMap.Load(path)` whose nil result would make the `*sync.Map` type
assertion panic — clears and refills that table's entry map in place. -/
def Readdir (db : DB) (st : TableMap) (path : String) :
    DirOutcome × TableMap :=
  if path = "" then
    match db.tables with
    | .error _ => (.enoent, st)
    | .ok elements =>
      (.ok (elements.map fun ele => DirEntry.mk ele dirMode),
        rebuildTables elements)
  else
    match db.recordIDs path with
    | .error _ => (.enoent, st)
    | .ok ids =>
      let elements := ids.map fun id => toString id ++ ".sql"
      match alistLoad st path with
      | none => (.panicked, st)
      | some _ =>
        (.ok (elements.map fun ele => DirEntry.mk ele fileMode),
          alistStore st path (mkEntryMap path elements))

/-- `(*MySQLRoot).Lookup` of the source: from the root it checks the
requested name against `tableMap`; from a table directory it loads the
table's entry map and checks `filepath.Join(currentDir, name)` against
it.  The backend handle `db` is carried by the node but never queried;
a hit constructs a child inode with the branch's mode. -/
def Lookup (db : DB) (st : TableMap) (currentDir name : String) :
    LookupResult :=
  if currentDir = "" then
    match alistLoad st name with
    | some _ => .hit dirMode
    | none => .miss
  else
    match alistLoad st currentDir with
    | none => .miss
    | some m =>
      match alistLoad m (filepathJoin currentDir name) with
      | some _ => .hit fileMode
      | none => .miss

/-- `(*MySQLRoot).Opendir` of the source: prints a debug line at most and
returns `fs.OK` unconditionally; no state is read or written. -/
def Opendir (db : DB) (st : TableMap) (path : String) : Nat × TableMap :=
  (fsOK, st)

/-- The query string built by `getRecordIDs`:
`fmt.Sprintf("SELECT id FROM %s", "`"+table+"`")` — the table name is
interpolated unescaped between backticks. -/
def enumIDQuery (table : String) : String :=
  "SELECT id FROM " ++ "`" ++ table ++ "`"

/-- A query text that is scoped to a single collection: the fixed
enumeration prefix, one backtick-free identifier, and the closing
backtick, nothing else. -/
def queryScopedToOneIdent (q : String) : Prop :=
  ∃ ident : String,
    ident.data.contains (Char.ofNat 96) = false ∧
    q = "SELECT id FROM " ++ "`" ++ ident ++ "`"

/-- A sequence of further `Readdir` calls (each with its own backend
oracle result), applied in order to the index. -/
def applyListings (st : TableMap) (ops : List (DB × String)) : TableMap :=
  ops.foldl (fun s p => (Readdir p.1 s p.2).2) st

/-- Concrete backend fixture for instantiations, taken from the example
scenario of the specification: collections `users` and `orders`, with
`users` holding record ids 1, 2, 3 and every other collection empty. -/
def sampleDB : DB :=
  DB.mk (Except.ok ["users", "orders"])
    (fun s => if s = "users" then Except.ok [1, 2, 3] else Except.ok [])

/-- Concrete backend fixture in which every query fails (connection
dropped or query error). -/
def failDB : DB :=
  DB.mk (Except.error ()) (fun _ => Except.error ())

/-! Helper lemmas about the association-list model of `sync.Map`. -/

theorem alistLoad_alistStore {β : Type} (m : List (String × β)) (k : String)
    (v : β) (k' : String) :
    alistLoad (alistStore m k v) k' = if k' = k then some v else alistLoad m k' := by
  induction m with
  | nil => simp [alistStore, alistLoad]
  | cons hd tl ih =>
    obtain ⟨k0, v0⟩ := hd
    by_cases hk : k = k0
    · subst hk
      simp only [alistStore, if_pos rfl, alistLoad]
      by_cases h' : k' = k <;> simp [h']
    · simp only [alistStore, if_neg hk, alistLoad]
      by_cases h' : k' = k0
      · subst h'
        have : ¬ k' = k := fun h => hk (h ▸ rfl)
        simp [this]
      · simp [h', ih]

theorem alistStore_alistStore {β : Type} (m : List (String × β)) (k : String)
    (v w : β) :
    alistStore (alistStore m k v) k w = alistStore m k w := by
  induction m with
  | nil => simp [alistStore]
  | cons hd tl ih =>
    obtain ⟨k0, v0⟩ := hd
    by_cases hk : k = k0
    · subst hk
      simp [alistStore]
    · simp [alistStore, hk, ih]

theorem alistLoad_foldl_store_const (C : List String) (acc : TableMap)
    (k : String) :
    alistLoad (C.foldl (fun m ele => alistStore m ele ([] : EntryMap)) acc) k =
      if k ∈ C then some [] else alistLoad acc k := by
  induction C generalizing acc with
  | nil => simp
  | cons c C ih =>
    simp only [List.foldl_cons, ih, alistLoad_alistStore, List.mem_cons]
    by_cases hC : k ∈ C
    · simp [hC]
    · by_cases hc : k = c <;> simp [hc, hC]

theorem alistLoad_rebuildTables (C : List String) (k : String) :
    alistLoad (rebuildTables C) k = if k ∈ C then some [] else none := by
  simpa [alistLoad] using alistLoad_foldl_store_const C [] k

theorem isSome_alistLoad_foldl_entry (path : String) (elements : List String)
    (acc : EntryMap) (k : String) :
    (alistLoad
        (elements.foldl
          (fun m ele =>
            alistStore m (filepathJoin path ele)
              (FileIndex.mk (filepathJoin path ele) ele)) acc) k).isSome
      ↔ k ∈ elements.map (filepathJoin path) ∨ (alistLoad acc k).isSome := by
  induction elements generalizing acc with
  | nil => simp
  | cons e es ih =>
    simp only [List.foldl_cons, ih, alistLoad_alistStore, List.map_cons,
      List.mem_cons]
    by_cases he : k = filepathJoin path e
    · simp [he]
    · simp [he, or_assoc]

theorem isSome_alistLoad_mkEntryMap (path : String) (elements : List String)
    (k : String) :
    (alistLoad (mkEntryMap path elements) k).isSome
      ↔ k ∈ elements.map (filepathJoin path) := by
  simpa [mkEntryMap, alistLoad] using
    isSome_alistLoad_foldl_entry path elements [] k

theorem string_append_cancel_left (p a b : String) (h : p ++ a = p ++ b) :
    a = b := by
  have hd : p.data ++ a.data = p.data ++ b.data := by
    have := congrArg String.data h
    simpa [String.data_append] using this
  exact String.ext (List.append_cancel_left hd)

theorem filepathJoin_inj (t : String) (ht : t ≠ "") (x y : String)
    (h : filepathJoin t x = filepathJoin t y) : x = y := by
  simp only [filepathJoin, if_neg ht] at h
  exact string_append_cancel_left (t ++ "/") x y (by
    simpa [String.append_assoc] using h)

theorem mem_map_filepathJoin (t : String) (ht : t ≠ "") (x : String)
    (elements : List String) :
    filepathJoin t x ∈ elements.map (filepathJoin t) ↔ x ∈ elements := by
  constructor
  · intro h
    obtain ⟨e, he, heq⟩ := List.mem_map.mp h
    exact (filepathJoin_inj t ht e x heq) ▸ he
  · intro h
    exact List.mem_map.mpr ⟨x, h, rfl⟩

/-! Helper lemmas about `Readdir`, `Lookup` and `applyListings`. -/

theorem readdir_root_ok (db : DB) (st : TableMap) (C : List String)
    (hC : db.tables = Except.ok C) :
    Readdir db st "" =
      (DirOutcome.ok (C.map fun ele => DirEntry.mk ele dirMode),
        rebuildTables C) := by
  simp [Readdir, hC]

theorem readdir_table_frame (db : DB) (st : TableMap) (t c : String)
    (ht : t ≠ "") (hc : c ≠ t) :
    alistLoad (Readdir db st t).2 c = alistLoad st c := by
  simp only [Readdir, if_neg ht]
  cases db.recordIDs t with
  | error e => rfl
  | ok ids =>
    cases h : alistLoad st t with
    | none => simp [h]
    | some m => simp [h, alistLoad_alistStore, hc]

theorem readdir_table_keys (db : DB) (st : TableMap) (t c : String)
    (ht : t ≠ "") :
    (alistLoad (Readdir db st t).2 c).isSome = (alistLoad st c).isSome := by
  by_cases hc : c = t
  · simp only [Readdir, if_neg ht]
    cases hq : db.recordIDs t with
    | error e => rfl
    | ok ids =>
      cases h : alistLoad st t with
      | none => simp [hc, h]
      | some m => simp [hc, h, alistLoad_alistStore]
  · rw [readdir_table_frame db st t c ht hc]

theorem applyListings_keys (ops : List (DB × String))
    (hops : ∀ p ∈ ops, p.2 ≠ "") (st : TableMap) (c : String) :
    (alistLoad (applyListings st ops) c).isSome = (alistLoad st c).isSome := by
  induction ops generalizing st with
  | nil => rfl
  | cons p ops ih =>
    have hp : p.2 ≠ "" := hops p (List.mem_cons_self p ops)
    have hrest : ∀ q ∈ ops, q.2 ≠ "" := fun q hq =>
      hops q (List.mem_cons_of_mem p hq)
    simp only [applyListings, List.foldl_cons]
    rw [show (ops.foldl (fun s q => (Readdir q.1 s q.2).2)
        (Readdir p.1 st p.2).2) = applyListings ((Readdir p.1 st p.2).2) ops
      from rfl]
    rw [ih hrest, readdir_table_keys p.1 st p.2 c hp]

theorem applyListings_frame (ops : List (DB × String)) (t : String)
    (hops : ∀ p ∈ ops, p.2 ≠ "" ∧ p.2 ≠ t) (st : TableMap) :
    alistLoad (applyListings st ops) t = alistLoad st t := by
  induction ops generalizing st with
  | nil => rfl
  | cons p ops ih =>
    have hp := hops p (List.mem_cons_self p ops)
    have hrest : ∀ q ∈ ops, q.2 ≠ "" ∧ q.2 ≠ t := fun q hq =>
      hops q (List.mem_cons_of_mem p hq)
    simp only [applyListings, List.foldl_cons]
    rw [show (ops.foldl (fun s q => (Readdir q.1 s q.2).2)
        (Readdir p.1 st p.2).2) = applyListings ((Readdir p.1 st p.2).2) ops
      from rfl]
    rw [ih hrest, readdir_table_frame p.1 st p.2 t hp.1 (Ne.symm hp.2)]

theorem lookup_root_ne_miss (db : DB) (st : TableMap) (n : String) :
    Lookup db st "" n ≠ LookupResult.miss ↔ (alistLoad st n).isSome := by
  simp only [Lookup, if_pos rfl]
  cases alistLoad st n <;> simp

theorem lookup_table_ne_miss (db : DB) (st : TableMap) (t n : String)
    (ht : t ≠ "") :
    Lookup db st t n ≠ LookupResult.miss ↔
      ∃ m, alistLoad st t = some m ∧
        (alistLoad m (filepathJoin t n)).isSome := by
  simp only [Lookup, if_neg ht]
  cases h : alistLoad st t with
  | none => simp
  | some m =>
    cases hm : alistLoad m (filepathJoin t n) <;> simp [hm]

theorem validChildName_ne_empty (s : String) (h : validChildName s = true) :
    s ≠ "" := by
  simp only [validChildName, Bool.and_eq_true, decide_eq_true_eq] at h
  exact h.1.1.1

/-- Listing the same path twice with the same backend results leaves the
index exactly where the first listing left it. -/
theorem readdir_readdir_state (db : DB) (st : TableMap) (p : String) :
    (Readdir db ((Readdir db st p).2) p).2 = (Readdir db st p).2 := by
  by_cases hp : p = ""
  · subst hp
    cases hT : db.tables with
    | error e => simp [Readdir, hT]
    | ok C => simp [Readdir, hT]
  · simp only [Readdir, if_neg hp]
    cases hR : db.recordIDs p with
    | error e => rfl
    | ok ids =>
      cases h : alistLoad st p with
      | none => simp [h]
      | some m => simp [h, alistLoad_alistStore, alistStore_alistStore]

/-! Claim theorems. -/

/-- C5: for every sequence of collection names delivered by the catalog
query, a root listing immediately after returns exactly those names in
order and multiplicity, each tagged with directory mode, and the
collection set of the rebuilt index is exactly that sequence's
membership. -/
theorem root_listing_exact (db : DB) (st : TableMap) (C : List String)
    (hC : db.tables = Except.ok C) :
    (Readdir db st "").1 =
      DirOutcome.ok (C.map fun c => DirEntry.mk c dirMode) ∧
    ∀ n : String, ((alistLoad (Readdir db st "").2 n).isSome ↔ n ∈ C) := by
  rw [readdir_root_ok db st C hC]
  refine ⟨rfl, fun n => ?_⟩
  rw [alistLoad_rebuildTables]
  by_cases h : n ∈ C <;> simp [h]

/-- Witness for C5 at the example scenario. -/
theorem root_listing_exact_w :
    sampleDB.tables = Except.ok ["users", "orders"] ∧
    (Readdir sampleDB [] "").1 =
      DirOutcome.ok (["users", "orders"].map fun c => DirEntry.mk c dirMode) ∧
    ((alistLoad (Readdir sampleDB [] "").2 "users").isSome ↔
      "users" ∈ ["users", "orders"]) :=
  ⟨rfl, (root_listing_exact sampleDB [] ["users", "orders"] rfl).1,
    (root_listing_exact sampleDB [] ["users", "orders"] rfl).2 "users"⟩

/-- C6: for a collection already present in the index, a listing of it
with identifier sequence `I` returns exactly the names rendered as the
decimal identifier followed by the fixed `.sql` suffix, in order, each
tagged with regular-file mode. -/
theorem collection_listing_exact (db : DB) (st : TableMap) (t : String)
    (I : List Int) (ht : t ≠ "") (hm : (alistLoad st t).isSome)
    (hI : db.recordIDs t = Except.ok I) :
    (Readdir db st t).1 =
      DirOutcome.ok
        (I.map fun id => DirEntry.mk (toString id ++ ".sql") fileMode) := by
  obtain ⟨m, hm2⟩ := Option.isSome_iff_exists.mp hm
  simp [Readdir, ht, hI, hm2]

/-- Witness for C6 at the example scenario (ids 1, 2, 3 of `users`). -/
theorem collection_listing_exact_w :
    ("users" : String) ≠ "" ∧
    (alistLoad [("users", ([] : EntryMap)), ("orders", [])] "users").isSome ∧
    sampleDB.recordIDs "users" = Except.ok [1, 2, 3] ∧
    (Readdir sampleDB [("users", []), ("orders", [])] "users").1 =
      DirOutcome.ok
        ([1, 2, 3].map fun id => DirEntry.mk (toString id ++ ".sql") fileMode) :=
  ⟨by decide, by decide, rfl,
    collection_listing_exact sampleDB [("users", []), ("orders", [])] "users"
      [1, 2, 3] (by decide) (by decide) rfl⟩

/-- C7: an entry rebuild of collection `c` (a listing of `c`) leaves
every other collection untouched: its binding in the index — hence both
its membership in the collection set and its entry set — is exactly what
it was before the listing, whatever the backend returned. -/
theorem entry_rebuild_frame (db : DB) (st : TableMap) (c c2 : String)
    (hc : c ≠ "") (hne : c2 ≠ c) :
    alistLoad (Readdir db st c).2 c2 = alistLoad st c2 ∧
    ((alistLoad (Readdir db st c).2 c2).isSome ↔ (alistLoad st c2).isSome) := by
  have h := readdir_table_frame db st c c2 hc hne
  exact ⟨h, by rw [h]⟩

/-- Witness for C7: listing `users` does not disturb `orders`. -/
theorem entry_rebuild_frame_w :
    ("users" : String) ≠ "" ∧ ("orders" : String) ≠ "users" ∧
    alistLoad
        (Readdir sampleDB [("users", ([] : EntryMap)), ("orders", [])]
          "users").2 "orders" =
      alistLoad [("users", ([] : EntryMap)), ("orders", [])] "orders" :=
  ⟨by decide, by decide,
    (entry_rebuild_frame sampleDB [("users", []), ("orders", [])] "users"
        "orders" (by decide) (by decide)).1⟩

/-- C8: a failed catalog query makes the root listing return exactly the
generic not-found errno with the index untouched, and a failed record
enumeration does the same for the collection listing; the value is the
one `ENOENT` in both cases, with no distinction between a missing
collection and a dropped connection (both failure modes reach the core
as the same opaque error). -/
theorem backend_error_uniform_enoent (dbT dbR : DB) (st st2 : TableMap)
    (t : String) (e1 e2 : Unit) (hT : dbT.tables = Except.error e1)
    (ht : t ≠ "") (hR : dbR.recordIDs t = Except.error e2) :
    Readdir dbT st "" = (DirOutcome.enoent, st) ∧
    Readdir dbR st2 t = (DirOutcome.enoent, st2) := by
  constructor
  · simp [Readdir, hT]
  · simp [Readdir, ht, hR]

/-- Witness for C8 with the all-failing backend. -/
theorem backend_error_uniform_enoent_w :
    failDB.tables = Except.error () ∧ ("users" : String) ≠ "" ∧
    failDB.recordIDs "users" = Except.error () ∧
    Readdir failDB [] "" = (DirOutcome.enoent, []) ∧
    Readdir failDB [("users", ([] : EntryMap))] "users" =
      (DirOutcome.enoent, [("users", ([] : EntryMap))]) := by
  refine ⟨rfl, by decide, rfl, ?_⟩
  exact backend_error_uniform_enoent failDB failDB [] [("users", [])]
    "users" () () rfl (by decide) rfl

/-- C9: rebuilding a collection twice in a row with the same backend
results yields exactly the same lookup outcome for every child name as
rebuilding it once. -/
theorem entry_rebuild_idempotent_lookup (db : DB) (st : TableMap)
    (c x : String) :
    Lookup db ((Readdir db ((Readdir db st c).2) c).2) c x =
      Lookup db ((Readdir db st c).2) c x := by
  rw [readdir_readdir_state]

/-- C10: the directory-open operation returns the `fs.OK` errno for every
node — root, collection directory, or entry leaf — leaves the index
unchanged, and in particular never returns `ENOTDIR`. -/
theorem opendir_always_ok (db : DB) (st : TableMap) (path : String) :
    (Opendir db st path).1 = fsOK ∧ (Opendir db st path).2 = st ∧
    (Opendir db st path).1 ≠ ENOTDIR := by
  refine ⟨rfl, rfl, by simp [Opendir, fsOK, ENOTDIR]⟩

/-- C1: lookup resolves purely against the cached index.  From the root,
after a root rebuild with collection set `C` followed by any further
collection listings, a lookup for `n` succeeds iff `n ∈ C`.  From a
collection `t`, after an entry rebuild of `t` with identifier sequence
`I` followed by any further listings that touch neither the root nor
`t`, a lookup for a clean child name `x` succeeds iff `x` is one of the
rendered entry names of `I`.  In both cases the decision is independent
of the backend oracle carried by the node: no backend query is issued. -/
theorem lookup_resolves_against_index (db0 dbt dbq dbq2 : DB)
    (st st2 : TableMap) (C : List String) (n t x : String) (I : List Int)
    (ops ops2 : List (DB × String))
    (hC : db0.tables = Except.ok C)
    (hops : ∀ p ∈ ops, p.2 ≠ "")
    (ht : validChildName t = true)
    (hx : validChildName x = true)
    (hm : (alistLoad st2 t).isSome)
    (hI : dbt.recordIDs t = Except.ok I)
    (hops2 : ∀ p ∈ ops2, p.2 ≠ "" ∧ p.2 ≠ t) :
    (Lookup dbq (applyListings (Readdir db0 st "").2 ops) "" n ≠
        LookupResult.miss ↔ n ∈ C) ∧
    (Lookup dbq (applyListings (Readdir dbt st2 t).2 ops2) t x ≠
        LookupResult.miss ↔ x ∈ I.map fun id => toString id ++ ".sql") ∧
    (∀ d m, Lookup dbq st d m = Lookup dbq2 st d m) := by
  have ht0 : t ≠ "" := validChildName_ne_empty t ht
  refine ⟨?_, ?_, fun d m => rfl⟩
  · rw [lookup_root_ne_miss, readdir_root_ok db0 st C hC]
    rw [show ((DirOutcome.ok (C.map fun ele => DirEntry.mk ele dirMode),
        rebuildTables C)).2 = rebuildTables C from rfl]
    rw [applyListings_keys ops hops, alistLoad_rebuildTables]
    by_cases h : n ∈ C <;> simp [h]
  · obtain ⟨m0, hm0⟩ := Option.isSome_iff_exists.mp hm
    have hstep : (Readdir dbt st2 t).2 =
        alistStore st2 t
          (mkEntryMap t (I.map fun id => toString id ++ ".sql")) := by
      simp [Readdir, ht0, hI, hm0]
    rw [lookup_table_ne_miss dbq _ t x ht0]
    rw [applyListings_frame ops2 t hops2, hstep, alistLoad_alistStore]
    simp only [if_pos rfl]
    constructor
    · rintro ⟨m, hm1, hm2⟩
      obtain rfl : mkEntryMap t (I.map fun id => toString id ++ ".sql") = m :=
        Option.some.inj hm1
      rw [isSome_alistLoad_mkEntryMap] at hm2
      exact (mem_map_filepathJoin t ht0 x _).mp hm2
    · intro hmem
      refine ⟨_, rfl, ?_⟩
      rw [isSome_alistLoad_mkEntryMap]
      exact (mem_map_filepathJoin t ht0 x _).mpr hmem

/-- Witness for C1 at the example scenario with empty trailing listing
sequences. -/
theorem lookup_resolves_against_index_w :
    (validChildName "users" = true ∧ validChildName "2.sql" = true ∧
      (alistLoad [("users", ([] : EntryMap)), ("orders", [])]
        "users").isSome) ∧
    (Lookup sampleDB (applyListings (Readdir sampleDB [] "").2 []) "" "users" ≠
        LookupResult.miss ↔ "users" ∈ ["users", "orders"]) ∧
    (Lookup sampleDB
        (applyListings
          (Readdir sampleDB [("users", []), ("orders", [])] "users").2 [])
        "users" "2.sql" ≠ LookupResult.miss ↔
      "2.sql" ∈ ([1, 2, 3].map fun id => toString id ++ ".sql")) := by
  have h := lookup_resolves_against_index sampleDB sampleDB sampleDB sampleDB
    [] [("users", []), ("orders", [])] ["users", "orders"] "users" "users"
    "2.sql" [1, 2, 3] [] [] rfl (by simp) (by decide) (by decide) (by decide)
    rfl (by simp)
  exact ⟨⟨by decide, by decide, by decide⟩, h.1, h.2.1⟩

/-- C2 counterexample: a collection `t` with a nonempty entry set that is
present both before and after a root rebuild (the catalog still lists
`t`) has its entry set changed by that root listing — the rebuild stores
a fresh empty map, so the entries are lost. -/
theorem root_listing_resets_entry_sets_cex :
    alistLoad
        (Readdir (DB.mk (Except.ok ["t"]) fun _ => Except.ok [])
          [("t", [("t/1.sql", FileIndex.mk "t/1.sql" "1.sql")])] "").2 "t" =
      some [] ∧
    alistLoad [("t", [("t/1.sql", FileIndex.mk "t/1.sql" "1.sql")])] "t" =
      some [("t/1.sql", FileIndex.mk "t/1.sql" "1.sql")] ∧
    ([("t/1.sql", FileIndex.mk "t/1.sql" "1.sql")] : EntryMap) ≠ [] := by
  exact ⟨rfl, rfl, by decide⟩

/-- C2 amended: a collection's entry set is populated only by that
collection's own listing, but a root listing does replace entry sets —
it resets the entry set of every collection of the new catalog to the
empty set (and drops all others), including collections present both
before and after the rebuild. -/
theorem root_listing_entry_sets (db : DB) (st : TableMap) (C : List String)
    (hC : db.tables = Except.ok C) (tname : String) :
    alistLoad (Readdir db st "").2 tname =
      if tname ∈ C then some [] else none := by
  rw [readdir_root_ok db st C hC]
  exact alistLoad_rebuildTables C tname

/-- Witness for the amended C2 on the counterexample input. -/
theorem root_listing_entry_sets_w :
    (DB.mk (Except.ok ["t"]) fun _ => Except.ok ([] : List Int)).tables =
      Except.ok ["t"] ∧
    alistLoad
        (Readdir (DB.mk (Except.ok ["t"]) fun _ => Except.ok [])
          [("t", [("t/1.sql", FileIndex.mk "t/1.sql" "1.sql")])] "").2 "t" =
      if "t" ∈ ["t"] then some [] else none :=
  ⟨rfl,
    root_listing_entry_sets (DB.mk (Except.ok ["t"]) fun _ => Except.ok [])
      [("t", [("t/1.sql", FileIndex.mk "t/1.sql" "1.sql")])] ["t"] rfl "t"⟩

/-- C4 counterexample: a sequential interleaving of listings in which the
key of collection `t` is removed by an intervening root rebuild makes the
next listing of `t` hit the unchecked `tableMap.Load` type assertion and
fault, even though the record enumerator succeeds: from an empty index,
list root with catalog `[t, u]`, list root again with catalog `[u]`,
then list collection `t` with a successful enumeration. -/
theorem interleaved_listing_fault_cex :
    (Readdir (DB.mk (Except.ok []) fun _ => Except.ok [1])
        (Readdir (DB.mk (Except.ok ["u"]) fun _ => Except.ok [])
          ((Readdir (DB.mk (Except.ok ["t", "u"]) fun _ => Except.ok [])
            [] "").2) "").2 "t").1 = DirOutcome.panicked := by
  rfl

/-- C4 amended: every lookup returns a definite hit or a definite miss
and never faults, the root listing never faults, and a collection
listing never faults provided the collection's key is still present in
the index; if an intervening root rebuild has removed the key and the
record enumeration then succeeds, the listing faults instead of
returning a listing or an error. -/
theorem no_fault_with_key_present (db : DB) (st : TableMap) (t d n : String)
    (ht : t ≠ "") (hm : (alistLoad st t).isSome) :
    (Readdir db st "").1 ≠ DirOutcome.panicked ∧
    (Readdir db st t).1 ≠ DirOutcome.panicked ∧
    (Lookup db st d n = LookupResult.miss ∨
      ∃ mo, Lookup db st d n = LookupResult.hit mo) := by
  obtain ⟨m0, hm0⟩ := Option.isSome_iff_exists.mp hm
  refine ⟨?_, ?_, ?_⟩
  · cases hT : db.tables with
    | error e => simp [Readdir, hT]
    | ok C => simp [Readdir, hT]
  · cases hR : db.recordIDs t with
    | error e => simp [Readdir, ht, hR]
    | ok ids => simp [Readdir, ht, hR, hm0]
  · cases h : Lookup db st d n with
    | miss => exact Or.inl rfl
    | hit mo => exact Or.inr ⟨mo, rfl⟩

/-- Witness for the amended C4 at the example scenario. -/
theorem no_fault_with_key_present_w :
    (("users" : String) ≠ "" ∧
      (alistLoad [("users", ([] : EntryMap)), ("orders", [])]
        "users").isSome) ∧
    (Readdir sampleDB [("users", []), ("orders", [])] "").1 ≠
      DirOutcome.panicked ∧
    (Readdir sampleDB [("users", []), ("orders", [])] "users").1 ≠
      DirOutcome.panicked ∧
    (Lookup sampleDB [("users", []), ("orders", [])] "" "users" =
        LookupResult.miss ∨
      ∃ mo, Lookup sampleDB [("users", []), ("orders", [])] "" "users" =
        LookupResult.hit mo) :=
  ⟨⟨by decide, by decide⟩,
    no_fault_with_key_present sampleDB [("users", []), ("orders", [])]
      "users" "" "users" (by decide) (by decide)⟩

/-- C3: the record enumerator interpolates the collection name unescaped
between backticks; evaluated at the adversarial collection name
containing a backtick, the built query is literally a `UNION` over two
collections, and it is not scoped to any single backtick-free
identifier, nor was the name rejected by any validation. -/
theorem enum_query_injection :
    enumIDQuery "a` UNION SELECT id FROM `b" =
      "SELECT id FROM `a` UNION SELECT id FROM `b`" ∧
    ¬ queryScopedToOneIdent (enumIDQuery "a` UNION SELECT id FROM `b") := by
  constructor
  · rfl
  · rintro ⟨ident, hno, heq⟩
    have h3 : ident.data = ("a` UNION SELECT id FROM `b" : String).data := by
      have h4 : ("SELECT id FROM " : String).data ++
          (("`" : String).data ++ (ident.data ++ ("`" : String).data)) =
          ("SELECT id FROM " : String).data ++
          (("`" : String).data ++
            (("a` UNION SELECT id FROM `b" : String).data ++
              ("`" : String).data)) := by
        have h5 : ("SELECT id FROM " ++ "`" ++ ident ++ "`" : String).data =
            ("SELECT id FROM " ++ "`" ++ "a` UNION SELECT id FROM `b" ++ "`" :
              String).data := by
          rw [← heq]; rfl
        simpa [String.data_append, List.append_assoc] using h5
      have h6 := List.append_cancel_left h4
      have h7 := List.append_cancel_left h6
      exact List.append_cancel_right h7
    rw [h3] at hno
    exact absurd hno (by decide)

end MysqlFuse
